import Mathlib

/-!
Verification of the `hot-sauce` hot-reloadable shared-state primitive
(`src/src/lib.rs`): a `HotSource` cell holding the current value and a
monotonic version counter, and `Hot` handles caching a snapshot plus the
version it was captured at.

Sequential embedding: the source cell's observable state is the pair
`(version, data)`; the version counter is an `AtomicUsize` incremented with
`fetch_add(1, SeqCst)`, which wraps on overflow, so it is modelled as a
natural number reduced modulo `2 ^ 64`.  A `Hot` handle owns a captured
version and a captured value (its `Arc<T>` keeps the value alive
independently of the source slot, so the value itself is modelled purely).
Methods that read the handle's source (`is_expired`, `sync`, `get_sync`)
take the source state as an explicit argument; methods that mutate shared
state return the new state.

A separate interleaving model (`SrcObs`, `UpdEvent`, `runEv`) captures the
order of the individual atomic steps of `update` (the `fetch_add` on the
version, then the pointer `swap`) and of `get` (the version load, then the
pointer load), to settle the claim about version/value consistency under
concurrent updates.
-/

namespace HotSauce

/-- Number of values of the Rust `usize` type on a 64-bit target; the
`AtomicUsize` version counter wraps modulo this constant. -/
def USIZE_MOD : Nat := 2 ^ 64

/-- `Version::inc`: `fetch_add(1, SeqCst)` on the counter — a wrapping
increment. -/
def Version.inc (v : Nat) : Nat := (v + 1) % USIZE_MOD

/-- `Version::get`: a load of the counter. -/
def Version.get (v : Nat) : Nat := v

/-- Observable state of `HotSourceInner<T>`: the version counter and the
value currently reachable through the `data : AtomicPtr<Weak<T>>` slot. -/
structure HotSourceInner (α : Type) where
  version : Nat
  data : α
deriving Repr, DecidableEq

/-- `HotSourceInner::new`: version starts at `0`, the slot holds the
initial value. -/
def HotSourceInner.new (v : α) : HotSourceInner α := ⟨0, v⟩

/-- `HotSourceInner::update`: `self.version.inc()` followed by a `swap` of
the slot to the new value. -/
def HotSourceInner.update (s : HotSourceInner α) (v : α) : HotSourceInner α :=
  ⟨Version.inc s.version, v⟩

/-- A sequence of `update` calls, applied left to right. -/
def HotSourceInner.updates (s : HotSourceInner α) (vs : List α) : HotSourceInner α :=
  vs.foldl HotSourceInner.update s

/-- State of a `Hot<T>` handle: the captured version and the captured
value (the handle's own strong `Arc<T>`). -/
structure Hot (α : Type) where
  version : Nat
  data : α
deriving Repr, DecidableEq

/-- `HotSourceInner::get`: read the version first, then load the slot and
upgrade the weak reference; sequentially this captures the current pair. -/
def HotSourceInner.get (s : HotSourceInner α) : Hot α :=
  ⟨Version.get s.version, s.data⟩

/-- `Hot::get`: return the cached data. -/
def Hot.get (h : Hot α) : α := h.data

/-- `Hot::is_expired`: `self.version < self.source.version.get()`. -/
def Hot.is_expired (h : Hot α) (s : HotSourceInner α) : Bool :=
  h.version < Version.get s.version

/-- `Hot::sync`: `*self = self.source.get()`. -/
def Hot.sync (_h : Hot α) (s : HotSourceInner α) : Hot α :=
  s.get

/-- `Hot::clone`: copy the captured version and the cached reference. -/
def Hot.clone (h : Hot α) : Hot α :=
  ⟨h.version, h.data⟩

/-- `Hot::new`: build a fresh one-value source and immediately `get` a
handle from it; the model returns the source alongside the handle the Rust
value owns. -/
def Hot.new (v : α) : HotSourceInner α × Hot α :=
  let s := HotSourceInner.new v
  (s, s.get)

/-- `Hot::update`: update the source, then re-`get` to refresh the handle. -/
def Hot.update (_h : Hot α) (s : HotSourceInner α) (v : α) :
    HotSourceInner α × Hot α :=
  let s' := s.update v
  (s', s'.get)

/-- `Hot::get_sync`: `if self.is_expired() { self.sync().get_sync() } else
{ self.get() }`. -/
def Hot.get_sync (h : Hot α) (s : HotSourceInner α) : α :=
  if h.is_expired s then (h.sync s).get_sync s else h.get
termination_by s.version - h.version
decreasing_by
  simp only [Hot.is_expired, Hot.sync, HotSourceInner.get, Version.get,
    decide_eq_true_eq] at *
  omega

/-- `Deref for Hot`: `&self.data`. -/
def Hot.deref (h : Hot α) : α := h.data

/-- `AsRef for Hot`: `&self.data`. -/
def Hot.as_ref (h : Hot α) : α := h.data

/-- `From<Hot<T>> for Arc<T>`: `val.data`. -/
def Hot.into_arc (h : Hot α) : α := h.data

/-- `Serialize for Hot`: `self.get().serialize(serializer)`, for an
arbitrary serializer `ser`. -/
def Hot.serialize (ser : α → σ) (h : Hot α) : σ :=
  ser h.get

/-- `Deserialize for Hot`: deserialize a value, then `Hot::new` it (a fresh
single-value source plus its handle). -/
def Hot.deserialize (de : ρ → Except ε α) (r : ρ) :
    Except ε (HotSourceInner α × Hot α) :=
  (de r).map Hot.new

/-- A source that has performed `USIZE_MOD - 1` updates since construction:
its wrapping version counter sits one increment away from overflow. -/
def bigSource : HotSourceInner Nat :=
  HotSourceInner.updates (HotSourceInner.new 0) (List.replicate (USIZE_MOD - 1) 0)

/-- A source created with value `4` that has then performed exactly
`USIZE_MOD` sequential updates to value `9`: its wrapping version counter
has returned to `0`, the version captured by a handle taken at
construction. -/
def wrapSource : HotSourceInner Nat :=
  HotSourceInner.updates (HotSourceInner.new 4) (List.replicate USIZE_MOD 9)

/-- Interleaving model of the shared atomic state: the version counter and
the index of the update whose value the `data` pointer slot currently holds
(`0` is the constructor's value; the value installed by update `k`
corresponds to version `k`). -/
structure SrcObs where
  version : Nat
  slot : Nat
deriving Repr, DecidableEq

/-- One atomic step of `HotSourceInner::update`: either the `fetch_add` on
the version counter (`inc`) or the pointer `swap` installing the value of
update `i`. -/
inductive UpdEvent where
  | inc : UpdEvent
  | swap : Nat → UpdEvent
deriving Repr, DecidableEq

/-- Effect of one atomic writer step on the shared state. -/
def stepEv (s : SrcObs) : UpdEvent → SrcObs
  | UpdEvent.inc => ⟨Version.inc s.version, s.slot⟩
  | UpdEvent.swap i => ⟨s.version, i⟩

/-- Run a list of atomic writer steps from a state. -/
def runEv (s : SrcObs) (es : List UpdEvent) : SrcObs := es.foldl stepEv s

/-- The atomic steps of a writer performing updates `1 .. n` sequentially:
update `k` first increments the version, then swaps in value `k`, exactly
as `HotSourceInner::update` orders its two atomic operations. -/
def writerTrace : Nat → List UpdEvent
  | 0 => []
  | n + 1 => writerTrace n ++ [UpdEvent.inc, UpdEvent.swap (n + 1)]

/-- The shared state right after `HotSourceInner::new`. -/
def initObs : SrcObs := ⟨0, 0⟩

/-- Whether a writer step is the version `fetch_add`. -/
def UpdEvent.isInc : UpdEvent → Bool
  | UpdEvent.inc => true
  | UpdEvent.swap _ => false

/-- Whether a writer step is the pointer `swap`. -/
def UpdEvent.isSwap : UpdEvent → Bool
  | UpdEvent.inc => false
  | UpdEvent.swap _ => true

/-- Number of version increments in a list of writer steps. -/
def countIncs (es : List UpdEvent) : Nat := es.countP UpdEvent.isInc

/-- Number of pointer swaps in a list of writer steps. -/
def countSwaps (es : List UpdEvent) : Nat := es.countP UpdEvent.isSwap

end HotSauce

namespace HotSauce

section Theorems

variable {α σ ρ ε : Type}

/-- The version counter after a run of sequential updates: each update
wraps modulo `USIZE_MOD`. -/
theorem updates_version (s : HotSourceInner α) (vs : List α)
    (hs : s.version < USIZE_MOD) :
    (s.updates vs).version = (s.version + vs.length) % USIZE_MOD := by
  induction vs generalizing s with
  | nil =>
    simp [HotSourceInner.updates, Nat.mod_eq_of_lt hs]
  | cons v vs ih =>
    have hs' : (s.update v).version < USIZE_MOD := by
      simp only [HotSourceInner.update, Version.inc]
      exact Nat.mod_lt _ (by simp [USIZE_MOD])
    have := ih (s.update v) hs'
    simp only [HotSourceInner.updates, List.foldl_cons] at this ⊢
    rw [this]
    simp only [HotSourceInner.update, Version.inc, Nat.mod_add_mod, List.length_cons]
    congr 1
    omega

/-- The version counter after `n` updates of a fresh source is `n`
reduced modulo `USIZE_MOD`. -/
theorem updates_new_version (v0 : α) (vs : List α) :
    ((HotSourceInner.new v0).updates vs).version = vs.length % USIZE_MOD := by
  have := updates_version (HotSourceInner.new v0) vs (by simp [HotSourceInner.new, USIZE_MOD])
  simpa [HotSourceInner.new] using this

/-- After a nonempty run of updates the slot holds the last updated value. -/
theorem updates_data (s : HotSourceInner α) (vs : List α) :
    (s.updates vs).data = vs.getLastD s.data := by
  induction vs generalizing s with
  | nil => simp [HotSourceInner.updates]
  | cons v vs ih =>
    simp only [HotSourceInner.updates, List.foldl_cons] at ih ⊢
    rw [ih (s.update v), List.getLastD_cons]
    simp [HotSourceInner.update]

/-- The last element of a run of identical values. -/
theorem getLastD_replicate_self (n : Nat) (a : α) :
    (List.replicate n a).getLastD a = a := by
  induction n with
  | zero => rfl
  | succ n ih => rw [List.replicate_succ, List.getLastD_cons, ih]

/-- Two source states with equal fields are equal. -/
theorem hot_source_ext (s t : HotSourceInner α) (hv : s.version = t.version)
    (hd : s.data = t.data) : s = t := by
  cases s
  cases t
  cases hv
  cases hd
  rfl

/-- The last element of a nonempty run of identical values, for any
default. -/
theorem getLastD_replicate_pos (n : Nat) (a d : α) (hn : 0 < n) :
    (List.replicate n a).getLastD d = a := by
  cases n with
  | zero => exact absurd hn (Nat.lt_irrefl 0)
  | succ n =>
    rw [List.replicate_succ, List.getLastD_cons]
    exact getLastD_replicate_self n a

/-- The state of `bigSource` in closed form: its wrapping version counter
reads `USIZE_MOD - 1` and its slot holds `0`. -/
theorem bigSource_eq : bigSource = ⟨USIZE_MOD - 1, 0⟩ := by
  have h1 : bigSource.version = USIZE_MOD - 1 := by
    unfold bigSource
    rw [updates_new_version, List.length_replicate]
    exact Nat.mod_eq_of_lt (Nat.sub_lt (by norm_num [USIZE_MOD]) one_pos)
  have h2 : bigSource.data = 0 := by
    unfold bigSource
    rw [updates_data]
    exact getLastD_replicate_self (USIZE_MOD - 1) 0
  exact hot_source_ext bigSource ⟨USIZE_MOD - 1, 0⟩ h1 h2

/-- The state of `wrapSource` in closed form: the counter has wrapped back
to `0` while the slot holds the last updated value `9`. -/
theorem wrapSource_eq : wrapSource = ⟨0, 9⟩ := by
  have h1 : wrapSource.version = 0 := by
    unfold wrapSource
    rw [updates_new_version, List.length_replicate, Nat.mod_self]
  have h2 : wrapSource.data = 9 := by
    unfold wrapSource
    rw [updates_data]
    exact getLastD_replicate_pos USIZE_MOD 9 _ (by norm_num [USIZE_MOD])
  exact hot_source_ext wrapSource ⟨0, 9⟩ h1 h2

/-- Claim C3: constructing a source with initial value `v0` sets
`version = 0` and `current = v0`; the first handle — via `get()` on the
source or via the one-step `Hot::new` convenience constructor — has
`get() == v0` and `is_expired() == false`.  Construction is a total
function of the initial value: it has no failure mode. -/
theorem C3_construction (v0 : α) :
    (HotSourceInner.new v0).version = 0 ∧
    (HotSourceInner.new v0).data = v0 ∧
    ((HotSourceInner.new v0).get).get = v0 ∧
    ((HotSourceInner.new v0).get).is_expired (HotSourceInner.new v0) = false ∧
    Hot.new v0 = (HotSourceInner.new v0, (HotSourceInner.new v0).get) ∧
    ((Hot.new v0).2).get = v0 ∧
    ((Hot.new v0).2).is_expired ((Hot.new v0).1) = false := by
  refine ⟨rfl, rfl, rfl, ?_, rfl, rfl, ?_⟩ <;>
    simp [Hot.is_expired, HotSourceInner.new, HotSourceInner.get, Hot.new,
      Version.get]

/-- Claim C4: `is_expired()` returns true exactly when the handle's
captured version is strictly below the source's version; equal versions
mean not expired.  The embedding's `is_expired` is a pure function of the
handle and source states, so it modifies neither. -/
theorem C4_is_expired_characterization (h : Hot α) (s : HotSourceInner α) :
    (h.is_expired s = true ↔ h.version < s.version) ∧
    (h.version = s.version → h.is_expired s = false) := by
  constructor
  · simp [Hot.is_expired, Version.get]
  · intro hv
    simp [Hot.is_expired, Version.get, hv]

/-- Witness for C4 at concrete states: a handle one version behind is
expired; a handle at the source's version is not. -/
theorem C4_is_expired_characterization_witness :
    (Hot.mk 1 (7 : Nat)).is_expired ⟨2, 7⟩ = true ∧
    (Hot.mk 2 (7 : Nat)).is_expired ⟨2, 7⟩ = false :=
  ⟨(C4_is_expired_characterization ⟨1, 7⟩ ⟨2, 7⟩).1.mpr (by decide),
   (C4_is_expired_characterization ⟨2, 7⟩ ⟨2, 7⟩).2 (by decide)⟩

/-- Claim C5: `sync()` is idempotent — syncing twice with no intervening
update gives the same handle state as syncing once, `is_expired()` is
false after both calls, and `get()` is unchanged between them. -/
theorem C5_sync_idempotent (h : Hot α) (s : HotSourceInner α) :
    (h.sync s).sync s = h.sync s ∧
    (h.sync s).is_expired s = false ∧
    ((h.sync s).sync s).is_expired s = false ∧
    ((h.sync s).sync s).get = (h.sync s).get := by
  refine ⟨rfl, ?_, ?_, rfl⟩ <;>
    simp [Hot.sync, Hot.is_expired, HotSourceInner.get, Version.get]

/-- Claim C10: all public read accessors of a handle — `Deref`, `as_ref`,
and the conversion into the shared owned value — agree with `get()` and
return exactly the cached value; none of them takes the source as input. -/
theorem C10_accessors_agree (h : Hot α) :
    Hot.deref h = h.get ∧ Hot.as_ref h = h.get ∧ Hot.into_arc h = h.get ∧
    Hot.deref h = h.data ∧ Hot.as_ref h = h.data ∧ Hot.into_arc h = h.data :=
  ⟨rfl, rfl, rfl, rfl, rfl, rfl⟩

/-- Claim C8: serializing a handle applies the serializer directly to the
cached inner value (no envelope, no version field); deserializing a value
builds a fresh single-value source at version `0` whose handle caches the
deserialized value and is not expired. -/
theorem C8_serde_transparent (ser : α → σ) (de : ρ → Except ε α)
    (h : Hot α) (r : ρ) (v : α) (hde : de r = Except.ok v) :
    Hot.serialize ser h = ser h.data ∧
    Hot.deserialize de r = Except.ok (Hot.new v) ∧
    ((Hot.new v).1).version = 0 ∧
    ((Hot.new v).2).data = v ∧
    ((Hot.new v).2).is_expired ((Hot.new v).1) = false := by
  refine ⟨rfl, ?_, rfl, rfl, ?_⟩
  · simp [Hot.deserialize, hde, Except.map]
  · simp [Hot.new, Hot.is_expired, HotSourceInner.new, HotSourceInner.get,
      Version.get]

/-- Witness for C8 with a concrete serializer, deserializer and handle. -/
theorem C8_serde_transparent_witness :
    ((fun n : Nat => (Except.ok n : Except Unit Nat)) 3 = Except.ok 3) ∧
    (Hot.serialize (fun n : Nat => n + 1) (Hot.mk 0 4) =
        (fun n : Nat => n + 1) (Hot.mk 0 (4 : Nat)).data ∧
      Hot.deserialize (fun n : Nat => (Except.ok n : Except Unit Nat)) 3 =
        Except.ok (Hot.new 3) ∧
      ((Hot.new (3 : Nat)).1).version = 0 ∧
      ((Hot.new (3 : Nat)).2).data = 3 ∧
      ((Hot.new (3 : Nat)).2).is_expired ((Hot.new (3 : Nat)).1) = false) :=
  ⟨rfl,
   C8_serde_transparent (fun n : Nat => n + 1)
     (fun n : Nat => (Except.ok n : Except Unit Nat)) (Hot.mk 0 4) 3 3 rfl⟩

/-- Claim C6: `update` modifies only the source; a handle captured before a
nonempty run of updates — and any clone of it — keeps its captured version
and cached value, and its `get()` still returns the originally captured
value, even though the source's slot has moved to the last updated value. -/
theorem C6_snapshot_durability (s : HotSourceInner α) (vs : List α)
    (hvs : vs ≠ []) :
    ((s.get).clone).get = s.data ∧
    ((s.get).clone).version = s.version ∧
    (s.get).clone = s.get ∧
    (s.updates vs).data = vs.getLast hvs := by
  refine ⟨rfl, rfl, rfl, ?_⟩
  rw [updates_data]
  cases vs with
  | nil => exact absurd rfl hvs
  | cons v t =>
    simp [List.getLastD_eq_getLast?, List.getLast?_eq_getLast]

/-- Witness for C6: a handle captured at value `5` before two updates
still reads `5`, while the source has moved to value `7`. -/
theorem C6_snapshot_durability_witness :
    ([6, 7] : List Nat) ≠ [] ∧
    (((HotSourceInner.mk 0 (5 : Nat)).get).clone).get = 5 ∧
    ((HotSourceInner.mk 0 (5 : Nat)).updates [6, 7]).data =
      ([6, 7] : List Nat).getLast (by decide) :=
  have h := C6_snapshot_durability (HotSourceInner.mk 0 (5 : Nat)) [6, 7]
    (by decide)
  ⟨by decide, h.1, h.2.2.2⟩

/-- Counterexample to C1 as stated: on a source whose wrapping version
counter has reached `USIZE_MOD - 1` (reachable by `USIZE_MOD - 1` updates
from construction), an `update` wraps the counter to `0`, and a handle
obtained just before the update reports `is_expired() = false`, not
`true` as the claim requires. -/
theorem C1_counterexample :
    (bigSource.get).is_expired (bigSource.update 1) = false := by
  rw [bigSource_eq]
  decide

/-- Claim C1 (amended): provided the source's version counter does not
overflow on this update (`version + 1 < USIZE_MOD`), a handle obtained
from the source before `update(v1)` is expired immediately afterwards,
and after `sync()` its `get()` returns `v1` and it is no longer expired.
`h.version ≤ s.version` holds for every handle obtained from the source. -/
theorem C1_single_update_refresh (s : HotSourceInner α) (h : Hot α) (v1 : α)
    (hobt : h.version ≤ s.version) (hnowrap : s.version + 1 < USIZE_MOD) :
    h.is_expired (s.update v1) = true ∧
    (h.sync (s.update v1)).get = v1 ∧
    (h.sync (s.update v1)).is_expired (s.update v1) = false := by
  have hinc : (s.update v1).version = s.version + 1 := by
    simp [HotSourceInner.update, Version.inc, Nat.mod_eq_of_lt hnowrap]
  refine ⟨?_, rfl, ?_⟩
  · simp only [Hot.is_expired, Version.get, hinc, decide_eq_true_eq]
    omega
  · simp [Hot.sync, Hot.is_expired, HotSourceInner.get, Version.get]

/-- Witness for the amended C1 at a fresh source holding `5`, updated to
`7`. -/
theorem C1_single_update_refresh_witness :
    ((Hot.mk 0 (5 : Nat)).version ≤ (HotSourceInner.mk 0 (5 : Nat)).version ∧
      (HotSourceInner.mk 0 (5 : Nat)).version + 1 < USIZE_MOD) ∧
    ((Hot.mk 0 (5 : Nat)).is_expired
        ((HotSourceInner.mk 0 (5 : Nat)).update 7) = true ∧
      ((Hot.mk 0 (5 : Nat)).sync ((HotSourceInner.mk 0 (5 : Nat)).update 7)).get = 7 ∧
      ((Hot.mk 0 (5 : Nat)).sync
          ((HotSourceInner.mk 0 (5 : Nat)).update 7)).is_expired
        ((HotSourceInner.mk 0 (5 : Nat)).update 7) = false) :=
  ⟨⟨by decide, by decide⟩,
   C1_single_update_refresh (HotSourceInner.mk 0 5) (Hot.mk 0 5) 7
     (by decide) (by decide)⟩

/-- Counterexample to C2 as stated: after exactly `USIZE_MOD` sequential
updates the wrapping version counter reads `0`, not `USIZE_MOD`. -/
theorem C2_counterexample :
    ((HotSourceInner.new (0 : Nat)).updates
        (List.replicate USIZE_MOD 0)).version ≠ USIZE_MOD := by
  rw [updates_new_version, List.length_replicate, Nat.mod_self]
  norm_num [USIZE_MOD]

/-- Claim C2 (amended): `N` sequential updates on a fresh source yield
`version = N` for every `N < USIZE_MOD` (in general `N % USIZE_MOD`), and
each single update from a non-overflowing state increments the counter by
exactly one — it is never decremented, skipped or reset short of the
`usize` wraparound. -/
theorem C2_version_monotonicity (v0 : α) (vs : List α)
    (hlen : vs.length < USIZE_MOD) :
    ((HotSourceInner.new v0).updates vs).version = vs.length ∧
    (∀ s : HotSourceInner α, ∀ v : α, s.version + 1 < USIZE_MOD →
      (s.update v).version = s.version + 1) := by
  constructor
  · rw [updates_new_version]
    exact Nat.mod_eq_of_lt hlen
  · intro s v hw
    simp [HotSourceInner.update, Version.inc, Nat.mod_eq_of_lt hw]

/-- Witness for the amended C2: three updates yield version `3`. -/
theorem C2_version_monotonicity_witness :
    ([1, 2, 3] : List Nat).length < USIZE_MOD ∧
    (((HotSourceInner.new (0 : Nat)).updates [1, 2, 3]).version = 3 ∧
      (∀ s : HotSourceInner Nat, ∀ v : Nat, s.version + 1 < USIZE_MOD →
        (s.update v).version = s.version + 1)) :=
  ⟨by decide,
   have h := C2_version_monotonicity (0 : Nat) [1, 2, 3] (by decide)
   ⟨h.1, h.2⟩⟩

/-- Counterexample to C7 as stated: a handle captured at version `0` from
a fresh source holding `4`, after exactly `USIZE_MOD` sequential updates
to `9` (none concurrent with the `get_sync` call), sees the wrapped
counter back at `0`: `is_expired()` is false, so `get_sync()` returns the
stale cached `4` instead of the source's current value `9`. -/
theorem C7_counterexample :
    ((HotSourceInner.new (4 : Nat)).get).get_sync wrapSource = 4 ∧
    wrapSource.data = 9 := by
  rw [wrapSource_eq]
  have hexp : ¬(((HotSourceInner.new (4 : Nat)).get).is_expired
      (⟨0, 9⟩ : HotSourceInner Nat) = true) := by decide
  refine ⟨?_, rfl⟩
  rw [Hot.get_sync, if_neg hexp]
  rfl

/-- Claim C7 (amended): `get_sync` repeats `sync` while `is_expired` holds
and then returns `get`; with no concurrent updates it needs at most one
`sync` (its recursion unfolds exactly once) and returns the source's
current value, provided the updates since the handle was obtained have not
wrapped the `usize` counter back to the handle's captured version (`C7`
counterexample).  The hypotheses state exactly that: the captured version
is at most the source's, and when the versions agree the cached data is
still the source's data — true for every handle obtained from the source
with fewer than `USIZE_MOD` intervening updates. -/
theorem C7_get_sync (s : HotSourceInner α) (h : Hot α)
    (hle : h.version ≤ s.version)
    (hcoh : h.version = s.version → h.data = s.data) :
    h.get_sync s = s.data ∧
    h.get_sync s = (if h.is_expired s then (h.sync s).get else h.get) := by
  have hsync_fresh : (h.sync s).is_expired s = false := by
    simp [Hot.sync, HotSourceInner.get, Hot.is_expired, Version.get]
  by_cases hexp : h.is_expired s
  · have h1 : h.get_sync s = (h.sync s).get_sync s := by
      rw [Hot.get_sync, if_pos hexp]
    have h2 : (h.sync s).get_sync s = (h.sync s).get := by
      rw [Hot.get_sync, hsync_fresh]
      simp
    refine ⟨?_, ?_⟩
    · rw [h1, h2]
      rfl
    · rw [h1, h2, if_pos hexp]
  · have hv : h.version = s.version := by
      simp only [Hot.is_expired, Version.get, decide_eq_true_eq] at hexp
      omega
    have h1 : h.get_sync s = h.get := by
      rw [Hot.get_sync, if_neg hexp]
    refine ⟨?_, ?_⟩
    · rw [h1]
      exact hcoh hv
    · rw [h1, if_neg hexp]

/-- Witness for C7: an expired handle at version `0` over a source at
version `2` holding `9` resynchronizes to `9` in one `sync`. -/
theorem C7_get_sync_witness :
    ((Hot.mk 0 (4 : Nat)).version ≤ (HotSourceInner.mk 2 (9 : Nat)).version ∧
      ((Hot.mk 0 (4 : Nat)).version = (HotSourceInner.mk 2 (9 : Nat)).version →
        (Hot.mk 0 (4 : Nat)).data = (HotSourceInner.mk 2 (9 : Nat)).data)) ∧
    ((Hot.mk 0 (4 : Nat)).get_sync (HotSourceInner.mk 2 9) = 9 ∧
      (Hot.mk 0 (4 : Nat)).get_sync (HotSourceInner.mk 2 9) =
        (if (Hot.mk 0 (4 : Nat)).is_expired (HotSourceInner.mk 2 9) then
          ((Hot.mk 0 (4 : Nat)).sync (HotSourceInner.mk 2 9)).get
        else (Hot.mk 0 (4 : Nat)).get)) :=
  ⟨⟨by decide, by decide⟩,
   C7_get_sync (HotSourceInner.mk 2 9) (Hot.mk 0 4) (by decide) (by decide)⟩

/-- Running a concatenation of writer steps runs the two parts in turn. -/
theorem runEv_append (s : SrcObs) (es1 es2 : List UpdEvent) :
    runEv s (es1 ++ es2) = runEv (runEv s es1) es2 := by
  simp [runEv, List.foldl_append]

/-- Increment counts add over concatenation. -/
theorem countIncs_append (es1 es2 : List UpdEvent) :
    countIncs (es1 ++ es2) = countIncs es1 + countIncs es2 := by
  simp [countIncs, List.countP_append]

/-- Swap counts add over concatenation. -/
theorem countSwaps_append (es1 es2 : List UpdEvent) :
    countSwaps (es1 ++ es2) = countSwaps es1 + countSwaps es2 := by
  simp [countSwaps, List.countP_append]

/-- A full writer trace of `n` updates has `n` increments. -/
theorem countIncs_writerTrace (n : Nat) : countIncs (writerTrace n) = n := by
  induction n with
  | zero => rfl
  | succ n ih =>
    rw [writerTrace, countIncs_append, ih]
    rfl

/-- A full writer trace of `n` updates has `n` swaps. -/
theorem countSwaps_writerTrace (n : Nat) : countSwaps (writerTrace n) = n := by
  induction n with
  | zero => rfl
  | succ n ih =>
    rw [writerTrace, countSwaps_append, ih]
    rfl

/-- After a full writer trace of `n` updates the counter reads `n` modulo
`USIZE_MOD` and the slot holds the value of update `n`. -/
theorem runEv_writerTrace (n : Nat) :
    runEv initObs (writerTrace n) = ⟨n % USIZE_MOD, n⟩ := by
  induction n with
  | zero => rfl
  | succ n ih =>
    rw [writerTrace, runEv_append, ih]
    simp only [runEv, List.foldl_cons, List.foldl_nil, stepEv, Version.inc,
      Nat.mod_add_mod]

/-- Invariant of every prefix `p` of a sequential writer trace: the counter
reads the number of increments in `p` (modulo `USIZE_MOD`), the slot index
equals the number of swaps in `p`, swaps never outnumber increments,
increments lead swaps by at most one, and `p` has at most `n` increments. -/
theorem writer_prefix_invariant (n : Nat) :
    ∀ p q : List UpdEvent, p ++ q = writerTrace n →
      (runEv initObs p).version = countIncs p % USIZE_MOD ∧
      (runEv initObs p).slot = countSwaps p ∧
      countSwaps p ≤ countIncs p ∧
      countIncs p ≤ countSwaps p + 1 ∧
      countIncs p ≤ n := by
  induction n with
  | zero =>
    intro p q hpq
    rw [writerTrace] at hpq
    rcases List.append_eq_nil.mp hpq with ⟨hp, _⟩
    subst hp
    exact ⟨rfl, rfl, Nat.le_refl 0, Nat.zero_le 1, Nat.le_refl 0⟩
  | succ n ih =>
    intro p q hpq
    rw [writerTrace] at hpq
    rcases List.append_eq_append_iff.mp hpq with ⟨r, hr1, _⟩ | ⟨r, hr1, hr2⟩
    · have h := ih p r hr1.symm
      exact ⟨h.1, h.2.1, h.2.2.1, h.2.2.2.1, Nat.le_succ_of_le h.2.2.2.2⟩
    · have hfull := runEv_writerTrace n
      have hci := countIncs_writerTrace n
      have hcs := countSwaps_writerTrace n
      rcases r with _ | ⟨x, r⟩
      · rw [List.append_nil] at hr1
        subst hr1
        refine ⟨?_, ?_, ?_, ?_, ?_⟩ <;>
          simp [hfull, hci, hcs, Nat.le_succ_of_le]
      · rcases r with _ | ⟨y, r⟩
        · cases hr2
          subst hr1
          rw [runEv_append, hfull, countIncs_append, countSwaps_append,
            hci, hcs]
          refine ⟨?_, ?_, ?_, ?_, ?_⟩ <;>
            simp [runEv, stepEv, Version.inc, countIncs, countSwaps,
              UpdEvent.isInc, UpdEvent.isSwap, Nat.mod_add_mod]
        · rcases List.cons_eq_cons.mp hr2 with ⟨hx, hr2'⟩
          rcases List.cons_eq_cons.mp hr2' with ⟨hy, hr2''⟩
          rcases List.append_eq_nil.mp hr2''.symm with ⟨hrz, _⟩
          subst hx
          subst hy
          subst hrz
          subst hr1
          rw [runEv_append, hfull, countIncs_append, countSwaps_append,
            hci, hcs]
          refine ⟨?_, ?_, ?_, ?_, ?_⟩ <;>
            simp [runEv, stepEv, Version.inc, countIncs, countSwaps,
              UpdEvent.isInc, UpdEvent.isSwap, Nat.mod_add_mod]

/-- Counterexample to C9 as stated: with a single writer performing one
update — trace `inc` then `swap 1` — the reader's version load can fall
between the writer's version increment and its pointer swap.  The reader
then reports captured version `1` while the slot it subsequently loads
still holds the constructor's value, whose corresponding version is `0`:
the captured version exceeds the version of the captured value. -/
theorem C9_counterexample :
    ([UpdEvent.inc] ++ [] ++ [UpdEvent.swap 1] = writerTrace 1) ∧
    ¬((runEv initObs [UpdEvent.inc]).version ≤
        (runEv initObs ([UpdEvent.inc] ++ [])).slot) := by
  constructor
  · rfl
  · decide

/-- Claim C9 (amended): in the sequentially consistent interleaving of one
reader's `get` with a sequential writer (`p1` before the version load,
`p2` between the version load and the value load, fewer than `USIZE_MOD`
updates), the captured version never exceeds the counter at the moment the
value is loaded; and whenever the version load does not fall inside a
half-completed update (counter equals completed swaps), the captured
version is at most the version corresponding to the captured value.  The
unconditional consistent-pair property fails (`C9` counterexample):
`update` increments the counter before swapping the value. -/
theorem C9_consistent_capture (n : Nat) (p1 p2 p3 : List UpdEvent)
    (hn : n < USIZE_MOD) (htr : p1 ++ p2 ++ p3 = writerTrace n) :
    (runEv initObs p1).version ≤ (runEv initObs (p1 ++ p2)).version ∧
    ((runEv initObs p1).version = (runEv initObs p1).slot →
      (runEv initObs p1).version ≤ (runEv initObs (p1 ++ p2)).slot) := by
  have h1 := writer_prefix_invariant n p1 (p2 ++ p3)
    (by rw [← List.append_assoc]; exact htr)
  have h2 := writer_prefix_invariant n (p1 ++ p2) p3 htr
  have hm1 : countIncs p1 % USIZE_MOD = countIncs p1 :=
    Nat.mod_eq_of_lt (Nat.lt_of_le_of_lt h1.2.2.2.2 hn)
  have hm2 : countIncs (p1 ++ p2) % USIZE_MOD = countIncs (p1 ++ p2) :=
    Nat.mod_eq_of_lt (Nat.lt_of_le_of_lt h2.2.2.2.2 hn)
  constructor
  · rw [h1.1, h2.1, hm1, hm2, countIncs_append]
    exact Nat.le_add_right _ _
  · intro hcons
    rw [h1.1, hm1] at hcons ⊢
    rw [h1.2.1] at hcons
    rw [h2.2.1, countSwaps_append, hcons]
    exact Nat.le_add_right _ _

/-- Witness for the amended C9: reads at quiescent points around one full
update capture a consistent pair. -/
theorem C9_consistent_capture_witness :
    (1 < USIZE_MOD ∧
      [UpdEvent.inc, UpdEvent.swap 1] ++ [] ++ [] = writerTrace 1) ∧
    ((runEv initObs [UpdEvent.inc, UpdEvent.swap 1]).version ≤
        (runEv initObs ([UpdEvent.inc, UpdEvent.swap 1] ++ [])).version ∧
      ((runEv initObs [UpdEvent.inc, UpdEvent.swap 1]).version =
          (runEv initObs [UpdEvent.inc, UpdEvent.swap 1]).slot →
        (runEv initObs [UpdEvent.inc, UpdEvent.swap 1]).version ≤
          (runEv initObs ([UpdEvent.inc, UpdEvent.swap 1] ++ [])).slot)) :=
  ⟨⟨by decide, by decide⟩,
   C9_consistent_capture 1 [UpdEvent.inc, UpdEvent.swap 1] [] []
     (by decide) (by decide)⟩

end Theorems

end HotSauce
